import Mathlib

/-!
Verification of the PyJavaBridge python client core
(`src/main/resources/python/bridge.py`) against its specification.

The development shallowly embeds the bridge connection code:
Python values that cross the wire codec become the inductive `PyValue`;
the mutable state of `BridgeConnection` becomes the structure `ConnState`
with one pure transition function per method; the reader loop's
per-frame handling and terminal handling become `readerDeliver` and
`readerTerminate`; event dispatch becomes `dispatchFrames`.

Modelling conventions, used throughout:
* Python dicts are association lists with unique keys (`PyFields`),
  preserving insertion order like CPython dicts.
* `uuid.UUID` values are modelled by their canonical string form, for
  which `str` and the `UUID` constructor are mutually inverse.
* Python floats are modelled by the `PyValue.float` constructor over
  integral values only; the bridge code never does float arithmetic,
  it only tags a numeric override with `float(...)`.
* String predicates (`startswith`, `endswith`, `in`) are implemented
  over character lists so that they evaluate inside the kernel.
-/

/-- Decidable equality for `Except`, so that concrete codec results can
be checked by `decide`. -/
instance {ε : Type} {α : Type} [DecidableEq ε] [DecidableEq α] :
    DecidableEq (Except ε α) := fun x y =>
  match x, y with
  | .ok a, .ok b =>
    if h : a = b then isTrue (by rw [h])
    else isFalse (by intro he; cases he; exact h rfl)
  | .error a, .error b =>
    if h : a = b then isTrue (by rw [h])
    else isFalse (by intro he; cases he; exact h rfl)
  | .ok _, .error _ => isFalse (by intro h; cases h)
  | .error _, .ok _ => isFalse (by intro h; cases h)

namespace PyJavaBridge

/-- Python `str.startswith`, over character lists. -/
def strStartsWith (s p : String) : Bool := p.data.isPrefixOf s.data

/-- Python `str.endswith`, over character lists. -/
def strEndsWith (s p : String) : Bool := p.data.reverse.isPrefixOf s.data.reverse

/-- Python `p in s` substring test, over character lists. -/
def strContainsSub (s p : String) : Bool :=
  !(s.data.tails.filter (fun t => p.data.isPrefixOf t)).isEmpty

/-- The concrete `EnumValue` subclasses appearing in `_enum_from`'s
type-name registry (plus the `EnumValue` base itself, the registry's
default). -/
inductive EnumClass where
  | enumValue
  | material
  | biome
  | gameMode
  | sound
  | particle
  | difficulty
  | attributeType
  | barColor
  | barStyle
  | entityType
  | effectType
deriving DecidableEq, Repr

/-- `_enum_from`'s `mapping: type-name → EnumValue subclass`, with
`EnumValue` as the `mapping.get` default. -/
def EnumClass.ofTypeName (t : String) : EnumClass :=
  if t = "org.bukkit.Material" then .material
  else if t = "org.bukkit.block.Biome" then .biome
  else if t = "org.bukkit.GameMode" then .gameMode
  else if t = "org.bukkit.Sound" then .sound
  else if t = "org.bukkit.Particle" then .particle
  else if t = "org.bukkit.Difficulty" then .difficulty
  else if t = "org.bukkit.attribute.Attribute" then .attributeType
  else if t = "org.bukkit.boss.BarColor" then .barColor
  else if t = "org.bukkit.boss.BarStyle" then .barStyle
  else if t = "org.bukkit.entity.EntityType" then .entityType
  else if t = "org.bukkit.potion.PotionEffectType" then .effectType
  else .enumValue

/-- The `ProxyBase` subclasses appearing in `_proxy_from`'s `proxy_map`
and suffix heuristics (plus the `ProxyBase` base itself, the default). -/
inductive ProxyClass where
  | base
  | server
  | player
  | entity
  | world
  | dimension
  | location
  | block
  | chunk
  | vector
  | inventory
  | item
  | effect
  | bossBar
  | scoreboard
  | team
  | objective
  | advancement
  | advancementProgress
  | attr
  | event
deriving DecidableEq, Repr

/-- `cls.__name__`, as used by `_serialize` for value-only proxies. -/
def ProxyClass.pyName : ProxyClass → String
  | .base => "ProxyBase"
  | .server => "Server"
  | .player => "Player"
  | .entity => "Entity"
  | .world => "World"
  | .dimension => "Dimension"
  | .location => "Location"
  | .block => "Block"
  | .chunk => "Chunk"
  | .vector => "Vector"
  | .inventory => "Inventory"
  | .item => "Item"
  | .effect => "Effect"
  | .bossBar => "BossBar"
  | .scoreboard => "Scoreboard"
  | .team => "Team"
  | .objective => "Objective"
  | .advancement => "Advancement"
  | .advancementProgress => "AdvancementProgress"
  | .attr => "Attribute"
  | .event => "Event"

/-- `_proxy_from`'s exact-match `proxy_map` (type name → proxy class). -/
def proxyMapExact (t : String) : Option ProxyClass :=
  if t = "Server" then some .server
  else if t = "Player" then some .player
  else if t = "Entity" then some .entity
  else if t = "World" then some .world
  else if t = "WorldImpl" then some .world
  else if t = "Dimension" then some .dimension
  else if t = "Location" then some .location
  else if t = "Block" then some .block
  else if t = "Chunk" then some .chunk
  else if t = "Vector" then some .vector
  else if t = "Inventory" then some .inventory
  else if t = "ItemStack" then some .item
  else if t = "PotionEffect" then some .effect
  else if t = "BossBar" then some .bossBar
  else if t = "Scoreboard" then some .scoreboard
  else if t = "Team" then some .team
  else if t = "Objective" then some .objective
  else if t = "Advancement" then some .advancement
  else if t = "AdvancementProgress" then some .advancementProgress
  else if t = "AttributeInstance" then some .attr
  else if t = "Attribute" then some .attr
  else if t = "Event" then some .event
  else none

/-- `_proxy_from`'s class selection: the `...Event` check, the exact
`proxy_map` lookup, then the suffix heuristics. `none`/empty type
names are falsy in Python and skip every heuristic. -/
def proxyClassFor (typeName : Option String) : ProxyClass :=
  let tn := typeName.getD ""
  if tn ≠ "" && strEndsWith tn "Event" then .event
  else
    match proxyMapExact tn with
    | some c => c
    | none =>
      if tn = "" then .base
      else if strEndsWith tn "Player" then .player
      else if strEndsWith tn "Entity" then .entity
      else if strEndsWith tn "World" then .world
      else if strEndsWith tn "Location" then .location
      else if strEndsWith tn "Block" then .block
      else if strEndsWith tn "Chunk" then .chunk
      else if strContainsSub tn "Inventory" then .inventory
      else if strContainsSub tn "ItemStack" then .item
      else if strContainsSub tn "PotionEffect" then .effect
      else .base

mutual
/-- A Python value as handled by `BridgeConnection._serialize` /
`_deserialize`.  Proxy objects carry the six attributes set by
`ProxyBase.__init__` (`_handle`, `_type_name`, `fields`, `_target`,
`_ref_type`, `_ref_id`) plus their concrete class; enum values carry
their class, `type` and `name` dataclass fields; UUIDs their canonical
string; `simpleNamespace` is `types.SimpleNamespace`. -/
inductive PyValue where
  | pyNone
  | bool (b : Bool)
  | int (n : Int)
  | float (n : Int)
  | str (s : String)
  | list (xs : PyList)
  | dict (entries : PyFields)
  | proxy (cls : ProxyClass) (handle : Option Int) (typeName : Option String)
      (fields : PyFields) (target : Option String)
      (refType : Option String) (refId : Option String)
  | enumv (cls : EnumClass) (type : String) (name : String)
  | uuid (u : String)
  | simpleNamespace (entries : PyFields)
deriving DecidableEq, Repr

/-- A Python list of values. -/
inductive PyList where
  | nil
  | cons (v : PyValue) (rest : PyList)
deriving DecidableEq, Repr

/-- A Python string-keyed dict: insertion-ordered with unique keys. -/
inductive PyFields where
  | nil
  | cons (k : String) (v : PyValue) (rest : PyFields)
deriving DecidableEq, Repr
end

/-- `d.get(k)` on a dict. -/
def PyFields.lookup : PyFields → String → Option PyValue
  | .nil, _ => none
  | .cons k' v rest, k => if k' = k then some v else rest.lookup k

/-- `k in d` on a dict. -/
def PyFields.hasKey (es : PyFields) (k : String) : Bool := (es.lookup k).isSome

/-- `list(d.keys())`. -/
def PyFields.keys : PyFields → List String
  | .nil => []
  | .cons k _ rest => k :: rest.keys

/-- Dict item assignment `d[k] = v` (replace in place, else append),
matching CPython dict update order. -/
def PyFields.set : PyFields → String → PyValue → PyFields
  | .nil, k, v => .cons k v .nil
  | .cons k' v' rest, k, v =>
    if k' = k then .cons k v rest else .cons k' v' (rest.set k v)

/-- Python truthiness (`bool(v)`) for the modelled values.  Proxies,
enum values, UUIDs and namespaces define no `__bool__`/`__len__` and
are always truthy. -/
def pyTruthy : PyValue → Bool
  | .pyNone => false
  | .bool b => b
  | .int n => n != 0
  | .float n => n != 0
  | .str s => s ≠ ""
  | .list .nil => false
  | .dict .nil => false
  | _ => true

/-- Truthiness of the `Optional[str]` proxy attributes `_ref_type` /
`_ref_id` (`None` and `""` are falsy). -/
def optStrTruthy : Option String → Bool
  | none => false
  | some s => s ≠ ""

mutual
/-- `BridgeConnection._serialize`.  Handle-bound proxies become
`{__handle__}`, reference-bound `{__ref__: {type, id}}`, other proxies
`{__value__, fields}`; enums `{__enum__, name}`; UUIDs `{__uuid__}`;
lists and dicts recurse; every other value (scalars, namespaces)
passes through unchanged. -/
def serialize : PyValue → PyValue
  | .proxy cls handle _tn fields target refType refId =>
    match handle with
    | some h => .dict (.cons "__handle__" (.int h) .nil)
    | none =>
      if target = some "ref" && optStrTruthy refType && optStrTruthy refId then
        .dict (.cons "__ref__"
          (.dict (.cons "type" (.str (refType.getD ""))
            (.cons "id" (.str (refId.getD "")) .nil))) .nil)
      else
        .dict (.cons "__value__" (.str cls.pyName)
          (.cons "fields" (.dict (serializeFields fields)) .nil))
  | .enumv _cls t n =>
    .dict (.cons "__enum__" (.str t) (.cons "name" (.str n) .nil))
  | .uuid u => .dict (.cons "__uuid__" (.str u) .nil)
  | .list xs => .list (serializeList xs)
  | .dict es => .dict (serializeFields es)
  | v => v

/-- `[_serialize(v) for v in value]`. -/
def serializeList : PyList → PyList
  | .nil => .nil
  | .cons v rest => .cons (serialize v) (serializeList rest)

/-- `{k: _serialize(v) for k, v in value.items()}`. -/
def serializeFields : PyFields → PyFields
  | .nil => .nil
  | .cons k v rest => .cons k (serialize v) (serializeFields rest)
end

/-- The non-recursive part of `_proxy_from`: read `__type__` and
`__handle__` from the raw dict and build the proxy with the selected
class.  `ProxyBase.__init__` leaves `_target`/`_ref_type`/`_ref_id`
as `None`.  Handles are integers on the wire (spec §3); the model does
not represent non-integer handle payloads.  The `Player` uuid-cache
side effect of `_proxy_from` is unobservable here and omitted. -/
def proxyOf (es : PyFields) (fs : PyFields) : PyValue :=
  let typeName : Option String :=
    match es.lookup "__type__" with
    | some (.str s) => some s
    | _ => none
  let handle : Option Int :=
    match es.lookup "__handle__" with
    | some (.int n) => some n
    | _ => none
  .proxy (proxyClassFor typeName) handle typeName fs none none none

mutual
/-- `BridgeConnection._deserialize`.  Dicts are inspected for the
`__handle__`, `__uuid__`, `__enum__` tags in that order, then for the
`{x, y, z}` positional-namespace shape; otherwise dicts and lists
recurse and all other values pass through.  `Except.error` marks the
places where the Python code raises (a malformed tagged dict), which
is fatal to the reader loop. -/
def deserialize : PyValue → Except String PyValue
  | .dict es =>
    if es.hasKey "__handle__" then
      (deserializeProxyFields es).map fun fs => proxyOf es fs
    else if es.hasKey "__uuid__" then
      match es.lookup "__uuid__" with
      | some (.str s) => .ok (.uuid s)
      | _ => .error "uuid.UUID: badly formed argument"
    else if es.hasKey "__enum__" then
      match es.lookup "__enum__", es.lookup "name" with
      | some (.str t), some (.str n) => .ok (.enumv (EnumClass.ofTypeName t) t n)
      | _, _ => .error "enum frame missing string type or name"
    else if es.hasKey "x" && es.hasKey "y" && es.hasKey "z" then
      (deserializeFields es).map fun es' => .simpleNamespace es'
    else
      (deserializeFields es).map fun es' => .dict es'
  | .list xs => (deserializeList xs).map fun xs' => .list xs'
  | v => .ok v

/-- `[_deserialize(v) for v in value]`. -/
def deserializeList : PyList → Except String PyList
  | .nil => .ok .nil
  | .cons v rest => do
    let v' ← deserialize v
    let rest' ← deserializeList rest
    .ok (.cons v' rest')

/-- `{k: _deserialize(v) for k, v in value.items()}`. -/
def deserializeFields : PyFields → Except String PyFields
  | .nil => .ok .nil
  | .cons k v rest => do
    let v' ← deserialize v
    let rest' ← deserializeFields rest
    .ok (.cons k v' rest')

/-- `_proxy_from`'s field handling: `raw.get("fields") or {}` followed
by `{str(k): _deserialize(v) for k, v in raw_fields.items()}`.  A
truthy non-dict `fields` makes `.items()` raise. -/
def deserializeProxyFields : PyFields → Except String PyFields
  | .nil => .ok .nil
  | .cons k v rest =>
    if k = "fields" then
      if !pyTruthy v then .ok .nil
      else
        match v with
        | .dict fs => deserializeFields fs
        | _ => .error "proxy fields is not a mapping"
    else deserializeProxyFields rest
end

/-! ## Connection state and errors -/

/-- The bridge error taxonomy: `BridgeError` (generic remote/connection
error), `EntityGoneException` (the `ENTITY_GONE` error code), and a
protocol error — any exception raised while reading or decoding a
frame, which is fatal to the reader loop.  Messages are optional
because `message.get("message")` may be absent. -/
inductive BridgeErr where
  | bridgeError (msg : Option String)
  | entityGone (msg : Option String)
  | protocolError (msg : String)
deriving DecidableEq, Repr

/-- `BridgeError("Connection lost")`, the reader loop's disconnect
error. -/
def connectionLost : BridgeErr := .bridgeError (some "Connection lost")

/-- The error built by the `return`/`error` handlers from an `error`
frame's `code` and `message`. -/
def errorOf (code : Option String) (msg : Option String) : BridgeErr :=
  if code = some "ENTITY_GONE" then .entityGone msg else .bridgeError msg

/-- The state of one pending call: an unresolved asyncio future or
parked `_SyncWait`, or its terminal result/error. -/
inductive FutState where
  | pending
  | resolved (v : PyValue)
  | failed (e : BridgeErr)
deriving DecidableEq, Repr

/-- A `call` message as assembled by `BridgeConnection.call` /
`call_sync`: the request id, method, serialized positional args,
optional handle and target selectors, serialized extra kwargs (an
empty dict is omitted from the frame), and the optional `field`/
`value` pair for attribute writes. -/
structure CallMsg where
  id : Nat
  method : String
  argsList : PyList
  handle : Option Int
  target : Option String
  args : PyFields
  field : Option PyValue
  value : Option PyValue
deriving DecidableEq, Repr

/-- An outgoing frame written to the socket. -/
inductive Frame where
  | auth (token : String)
  | subscribe (event : String) (oncePerTick : Bool) (priority : String) (throttleMs : Int)
  | registerCommand (name : String) (permission : Option String)
  | call (m : CallMsg)
  | callBatch (atomic : Bool) (messages : List CallMsg)
  | waitFrame (id : Nat) (ticks : Int)
  | release (handles : List Int)
  | eventCancel (id : PyValue)
  | eventResult (id : PyValue) (result : PyValue) (resultType : String)
  | eventDone (id : PyValue)
  | shutdownAck
deriving DecidableEq, Repr

/-- The mutable state of a `BridgeConnection`.  `futures` / `syncWaits`
model every future / `_SyncWait` object ever created, keyed by request
id (ids are unique); `pendingReg` / `syncReg` are the key sets of the
`_pending` and `_pending_sync` registries.  `sent` is the ordered log
of frames written to the socket. -/
structure ConnState where
  futures : List (Nat × FutState)
  pendingReg : List Nat
  syncWaits : List (Nat × FutState)
  syncReg : List Nat
  idCounter : Nat
  batchStack : List String
  batchMessages : List CallMsg
  batchFutures : List Nat
  releaseQueue : List Int
  sent : List Frame
deriving DecidableEq, Repr

/-- The state right after `BridgeConnection.__init__`: the id counter
comes from `itertools.count(1)` and the `auth` frame has been sent. -/
def ConnState.init (token : String) : ConnState :=
  { futures := [], pendingReg := [], syncWaits := [], syncReg := [],
    idCounter := 1, batchStack := [], batchMessages := [], batchFutures := [],
    releaseQueue := [], sent := [.auth token] }

/-- Look up the state of the future/waiter registered under `i`. -/
def getFut (l : List (Nat × FutState)) (i : Nat) : Option FutState :=
  (l.find? (fun p => p.1 == i)).map (fun p => p.2)

/-- Overwrite the state of the future/waiter registered under `i`. -/
def setFut (l : List (Nat × FutState)) (i : Nat) (st : FutState) :
    List (Nat × FutState) :=
  l.map (fun p => (p.1, if p.1 == i then st else p.2))

/-- Remove an id from a registry key set (`dict.pop`). -/
def removeId (l : List Nat) (i : Nat) : List Nat := l.filter (fun j => j != i)

/-! ## Handle release queue -/

/-- `_flush_releases_locked`: an empty queue sends nothing, otherwise
all queued handles go out as one `release` frame and the queue is
emptied.  (`send` failures are swallowed by the code; the model's
socket never fails.) -/
def flushReleasesLocked (s : ConnState) : ConnState :=
  if s.releaseQueue.isEmpty then s
  else { s with releaseQueue := [],
                sent := s.sent ++ [Frame.release s.releaseQueue] }

/-- `_flush_releases` (same transition; the lock is invisible to the
sequential model). -/
def flushReleases (s : ConnState) : ConnState := flushReleasesLocked s

/-- `_queue_release`: append the handle and flush eagerly once the
queue holds 64 or more entries. -/
def queueRelease (s : ConnState) (h : Int) : ConnState :=
  let s' := { s with releaseQueue := s.releaseQueue ++ [h] }
  if 64 ≤ s'.releaseQueue.length then flushReleasesLocked s' else s'

/-! ## The two calling conventions -/

/-- `k not in {"field", "value"}` filtering of extra kwargs. -/
def PyFields.dropFieldValue : PyFields → PyFields
  | .nil => .nil
  | .cons k v rest =>
    if k = "field" || k = "value" then rest.dropFieldValue
    else .cons k v rest.dropFieldValue

/-- The message dict assembled identically by `call` and `call_sync`:
positional args and extra kwargs are serialized, `field` is passed
through raw and `value` serialized. -/
def buildCallMsg (rid : Nat) (method : String) (args : PyList)
    (handle : Option Int) (target : Option String) (kwargs : PyFields) :
    CallMsg :=
  { id := rid, method := method,
    argsList := serializeList args,
    handle := handle, target := target,
    args := serializeFields kwargs.dropFieldValue,
    field := kwargs.lookup "field",
    value := (kwargs.lookup "value").map serialize }

/-- `BridgeConnection.call` (the non-blocking convention): flush any
queued releases, allocate the next request id, register an async
future under it, build the message, then either append it to the
batch buffer (when a batch scope is open) or send it.  Returns the
request id together with the new state. -/
def connCall (s : ConnState) (method : String) (args : PyList)
    (handle : Option Int) (target : Option String) (kwargs : PyFields) :
    Nat × ConnState :=
  let s := flushReleases s
  let rid := s.idCounter
  let s := { s with idCounter := rid + 1,
                    futures := s.futures ++ [(rid, FutState.pending)],
                    pendingReg := s.pendingReg ++ [rid] }
  let msg := buildCallMsg rid method args handle target kwargs
  if s.batchStack.isEmpty then
    (rid, { s with sent := s.sent ++ [Frame.call msg] })
  else
    (rid, { s with batchMessages := s.batchMessages ++ [msg],
                   batchFutures := s.batchFutures ++ [rid] })

/-- The registration-and-send part of `BridgeConnection.call_sync`
(the blocking convention): allocate the next id, register a
`_SyncWait` under it in the separate sync registry, and send the
message immediately — `call_sync` checks neither the release queue
nor the batch stack.  (The subsequent `wait.event.wait()` park and
raise/return are modelled by the waiter's terminal `FutState`.) -/
def connCallSyncStart (s : ConnState) (method : String) (args : PyList)
    (handle : Option Int) (target : Option String) (kwargs : PyFields) :
    Nat × ConnState :=
  let rid := s.idCounter
  let s := { s with idCounter := rid + 1,
                    syncWaits := s.syncWaits ++ [(rid, FutState.pending)],
                    syncReg := s.syncReg ++ [rid] }
  let msg := buildCallMsg rid method args handle target kwargs
  (rid, { s with sent := s.sent ++ [Frame.call msg] })

/-- `BridgeConnection.wait`: allocate an id, register an async future,
and send a `wait` frame immediately (no batch check). -/
def connWait (s : ConnState) (ticks : Int) : Nat × ConnState :=
  let rid := s.idCounter
  let s := { s with idCounter := rid + 1,
                    futures := s.futures ++ [(rid, FutState.pending)],
                    pendingReg := s.pendingReg ++ [rid] }
  (rid, { s with sent := s.sent ++ [Frame.waitFrame rid ticks] })

/-! ## Batching -/

/-- `_begin_batch`: push a mode onto the stack. -/
def beginBatch (s : ConnState) (mode : String) : ConnState :=
  { s with batchStack := s.batchStack ++ [mode] }

/-- `_end_batch`: pop the top of the stack (no-op when empty). -/
def endBatch (s : ConnState) : ConnState :=
  { s with batchStack := s.batchStack.dropLast }

/-- `_current_batch_mode`: `None` on an empty stack, else `atomic`
when any open scope is atomic, else `frame`. -/
def currentBatchMode (s : ConnState) : Option String :=
  if s.batchStack.isEmpty then none
  else if s.batchStack.contains "atomic" then some "atomic" else some "frame"

/-- The synchronous part of `BridgeConnection.flush`: with a non-empty
buffer, send every buffered message as one `call_batch` frame whose
`atomic` flag is `mode == "atomic"` for the CURRENT stack, and clear
both buffers.  Returns the ids of the buffered futures that
`flush` then awaits together (`asyncio.gather`), re-raising the first
failure among their terminal states. -/
def connFlush (s : ConnState) : List Nat × ConnState :=
  if s.batchMessages.isEmpty then ([], s)
  else
    let mode := currentBatchMode s
    ( s.batchFutures,
      { s with batchMessages := [], batchFutures := [],
               sent := s.sent ++
                 [Frame.callBatch (decide (mode = some "atomic")) s.batchMessages] } )

/-- `flush`'s failure propagation: the first buffered future that
ended in an error, as re-raised after `asyncio.gather`. -/
def flushError (s : ConnState) (futs : List Nat) : Option BridgeErr :=
  futs.findSome? fun i =>
    match getFut s.futures i with
    | some (.failed e) => some e
    | _ => none

/-- `_BatchContext.__aexit__` on a normal (exception-free) exit:
`_end_batch()` first, `await self._connection.flush()` second — the
scope's own mode is popped before `flush` reads the stack. -/
def aexitNormal (s : ConnState) : List Nat × ConnState :=
  connFlush (endBatch s)

/-! ## Reader loop -/

/-- A decoded incoming `return`/`error` frame.  `message.get("id")`
may be absent, hence the `Option`. -/
inductive InMsg where
  | ret (id : Option Nat) (result : PyValue)
  | err (id : Option Nat) (code : Option String) (msg : Option String)
deriving DecidableEq, Repr

/-- The id a `return`/`error` frame carries. -/
def InMsg.msgId : InMsg → Option Nat
  | .ret i _ => i
  | .err i _ _ => i

/-- Whether the frame can be processed without raising: an `error`
frame always can, a `return` frame only if its result deserializes. -/
def InMsg.decodable : InMsg → Bool
  | .ret _ r => (deserialize r).toBool
  | .err _ _ _ => true

/-- The outcome of processing one decoded frame in the reader loop:
either the loop continues, or the frame raised (a sync waiter's
result failed to deserialize) and the loop breaks with that
exception. -/
inductive ReaderOutcome where
  | ok (s : ConnState)
  | broke (s : ConnState) (e : BridgeErr)
deriving DecidableEq, Repr

/-- One iteration of `_reader`'s dispatch for a decoded
`return`/`error` frame: a matching blocking waiter is popped from
`_pending_sync` and resolved directly on the reader thread (a decode
failure of its result breaks the loop after the pop); otherwise the
frame goes to `_handle_message` on the event loop, which pops the
async future from `_pending` and resolves it (a decode failure there
only drops that future, the reader continues). -/
def readerDeliver (s : ConnState) (m : InMsg) : ReaderOutcome :=
  match m with
  | .ret i? r =>
    match i? with
    | none => .ok s
    | some i =>
      if s.syncReg.contains i then
        match deserialize r with
        | .ok v => .ok { s with syncReg := removeId s.syncReg i,
                                syncWaits := setFut s.syncWaits i (.resolved v) }
        | .error e =>
          .broke { s with syncReg := removeId s.syncReg i } (.protocolError e)
      else if s.pendingReg.contains i then
        match deserialize r with
        | .ok v => .ok { s with pendingReg := removeId s.pendingReg i,
                                futures := setFut s.futures i (.resolved v) }
        | .error _ => .ok { s with pendingReg := removeId s.pendingReg i }
      else .ok s
  | .err i? code msg =>
    match i? with
    | none => .ok s
    | some i =>
      if s.syncReg.contains i then
        .ok { s with syncReg := removeId s.syncReg i,
                     syncWaits := setFut s.syncWaits i (.failed (errorOf code msg)) }
      else if s.pendingReg.contains i then
        .ok { s with pendingReg := removeId s.pendingReg i,
                     futures := setFut s.futures i (.failed (errorOf code msg)) }
      else .ok s

/-- The state after one frame, continuing past a hypothetical break
(used with `InMsg.decodable` hypotheses under which the outcomes
agree). -/
def deliverStep (s : ConnState) (m : InMsg) : ConnState :=
  match readerDeliver s m with
  | .ok s' => s'
  | .broke s' _ => s'

/-- Process a list of decoded frames in order. -/
def deliverAll (s : ConnState) (ms : List InMsg) : ConnState :=
  ms.foldl deliverStep s

/-- `_handle_reader_error`: fail every not-yet-done future still in
the `_pending` registry with `e`; nothing is removed from the
registry and done futures are untouched. -/
def handleReaderError (s : ConnState) (e : BridgeErr) : ConnState :=
  { s with futures := s.futures.map fun p =>
      (p.1, if s.pendingReg.contains p.1 && p.2 == FutState.pending
            then FutState.failed e else p.2) }

/-- The reader loop's `finally` block: wake every registered blocking
waiter with `BridgeError("Connection lost")` and clear the sync
registry, then schedule `_handle_reader_error` with the same
disconnect error. -/
def readerFinally (s : ConnState) : ConnState :=
  let s := { s with
    syncWaits := s.syncWaits.map fun p =>
      (p.1, if s.syncReg.contains p.1 then FutState.failed connectionLost else p.2),
    syncReg := [] }
  handleReaderError s connectionLost

/-- Reader-loop termination.  On a fatal in-loop exception (`exc =
some e`) the `except` branch schedules `_handle_reader_error e`
before breaking; the `finally` block then runs in both cases.  The
two `_handle_reader_error` calls execute on the event loop in that
order. -/
def readerTerminate (s : ConnState) (exc : Option BridgeErr) : ConnState :=
  match exc with
  | some e => readerFinally (handleReaderError s e)
  | none => readerFinally s

/-! ## Event dispatch -/

/-- A handler's outcome on a payload: a returned value, or a raised
exception.  `_dispatch_event` catches synchronous raises inline and
gathers awaitables with `return_exceptions=True`; both paths collect
an exception as a list entry, so a handler is modelled as a function
into this type.  (The sync/await split only affects the order of the
collected results, which no claim depends on.) -/
inductive HandlerResult where
  | value (v : PyValue)
  | exc (msg : String)
deriving DecidableEq, Repr

/-- An event handler. -/
def Handler := PyValue → HandlerResult

/-- The result list `_dispatch_event` collects from its handlers. -/
def dispatchResults (handlers : List Handler) (payload : PyValue) :
    List HandlerResult :=
  handlers.map fun h => h payload

/-- `event_id = payload.fields.get("__event_id__")` followed by the
`is not None` test; only `ProxyBase` payloads carry an event id. -/
def eventIdOf (payload : PyValue) : Option PyValue :=
  match payload with
  | .proxy _ _ _ fields _ _ _ =>
    match fields.lookup "__event_id__" with
    | some .pyNone => none
    | some v => some v
    | none => none
  | _ => none

/-- `isinstance(payload, ProxyBase) and "damage" in payload.fields`. -/
def isDamageEvent : PyValue → Bool
  | .proxy _ _ _ fields _ _ _ => fields.hasKey "damage"
  | _ => false

/-- The override scan over collected results: the last string result
becomes the chat override; on a damage-bearing event the last
non-bool numeric result becomes the damage override (tagged through
`float(...)`); exceptions and other values are skipped. -/
def scanOverrides (damage : Bool) (results : List HandlerResult) :
    Option String × Option PyValue :=
  results.foldl
    (fun acc r =>
      match r with
      | .value (.str t) => (some t, acc.2)
      | .value (.int n) => if damage then (acc.1, some (.float n)) else acc
      | .value (.float n) => if damage then (acc.1, some (.float n)) else acc
      | _ => acc)
    (none, none)

/-- The frames `_dispatch_event` sends after all handlers finish: when
the payload carries an event id, the chat override (if any) then the
damage override (if any) — both only considered when at least one
handler was registered — and then, unconditionally, the `event_done`
acknowledgment.  Without an event id nothing is sent. -/
def dispatchFrames (handlers : List Handler) (payload : PyValue) :
    List Frame :=
  let results := dispatchResults handlers payload
  match eventIdOf payload with
  | none => []
  | some eid =>
    (if handlers.isEmpty then []
     else
       let ov := scanOverrides (isDamageEvent payload) results
       (match ov.1 with
        | some t => [Frame.eventResult eid (.str t) "chat"]
        | none => []) ++
       (match ov.2 with
        | some d => [Frame.eventResult eid d "damage"]
        | none => []))
    ++ [Frame.eventDone eid]

/-! ## Proxy attribute assignment -/

/-- A proxy instance's `__dict__`, as populated by
`ProxyBase.__init__` and later `object.__setattr__` calls.  `Option`
attributes are stored as `pyNone` when absent, exactly as
`__init__` stores its defaulted parameters. -/
structure PyProxy where
  attrs : PyFields
deriving DecidableEq, Repr

/-- `ProxyBase.__init__(handle, type_name, fields, target, ref_type,
ref_id)` without extra kwargs: the six attribute slots, with
`fields or {}` applied. -/
def PyProxy.make (handle : Option Int) (typeName : Option String)
    (fields : PyFields) (target refType refId : Option String) : PyProxy :=
  let enc : Option String → PyValue := fun o =>
    match o with
    | some s => .str s
    | none => .pyNone
  { attrs :=
      .cons "_handle" (match handle with | some h => .int h | none => .pyNone)
      (.cons "_type_name" (enc typeName)
      (.cons "fields" (.dict fields)
      (.cons "_target" (enc target)
      (.cons "_ref_type" (enc refType)
      (.cons "_ref_id" (enc refId) .nil))))) }

/-- `self._handle is None`. -/
def PyProxy.handleIsNone (p : PyProxy) : Bool :=
  p.attrs.lookup "_handle" == some PyValue.pyNone

/-- `self._handle` as the optional integer passed to
`_connection.call(handle=...)`. -/
def PyProxy.handleOpt (p : PyProxy) : Option Int :=
  match p.attrs.lookup "_handle" with
  | some (.int n) => some n
  | _ => none

/-- `self._target == "ref"`. -/
def PyProxy.targetIsRef (p : PyProxy) : Bool :=
  p.attrs.lookup "_target" == some (PyValue.str "ref")

/-- An attribute slot's raw value (`pyNone` when never assigned). -/
def PyProxy.attr (p : PyProxy) (name : String) : PyValue :=
  (p.attrs.lookup name).getD .pyNone

/-- `ProxyBase.__setattr__`: names starting with an underscore, and
the name `fields`, are stored locally via `object.__setattr__` with
no bridge traffic; for every other name, a reference-bound proxy
(`_handle is None and _target == "ref"`) issues
`call(method="setAttr", args=[ref_type, ref_id, name, value],
target="ref")` and any other proxy issues `call(method="set_attr",
handle=self._handle, field=name, value=value)` — in both cases the
instance, including its `fields` cache, is left untouched. -/
def pySetattr (s : ConnState) (p : PyProxy) (name : String) (v : PyValue) :
    PyProxy × ConnState :=
  if strStartsWith name "_" || name = "fields" then
    ({ attrs := p.attrs.set name v }, s)
  else if p.handleIsNone && p.targetIsRef then
    (p, (connCall s "setAttr"
          (.cons (p.attr "_ref_type") (.cons (p.attr "_ref_id")
            (.cons (.str name) (.cons v .nil))))
          none (some "ref") .nil).2)
  else
    (p, (connCall s "set_attr" .nil p.handleOpt none
          (.cons "field" (.str name) (.cons "value" v .nil))).2)

/-! ## Association-list and registry lemmas -/

theorem contains_iff (l : List Nat) (i : Nat) : l.contains i = true ↔ i ∈ l :=
  List.elem_iff

theorem mem_removeId (l : List Nat) (i j : Nat) :
    j ∈ removeId l i ↔ j ∈ l ∧ j ≠ i := by
  simp [removeId, List.mem_filter, bne_iff_ne]

theorem contains_removeId (l : List Nat) (i j : Nat) (h : j ≠ i) :
    (removeId l i).contains j = l.contains j := by
  rw [Bool.eq_iff_iff, contains_iff, contains_iff, mem_removeId]
  exact and_iff_left h

theorem contains_removeId_self (l : List Nat) (i : Nat) :
    (removeId l i).contains i = false := by
  rw [← Bool.not_eq_true, contains_iff, mem_removeId]
  simp

theorem getFut_cons (k : Nat) (st : FutState) (l : List (Nat × FutState)) (i : Nat) :
    getFut ((k, st) :: l) i = if k = i then some st else getFut l i := by
  by_cases h : k = i
  · simp [getFut, List.find?_cons, h]
  · have hb : (k == i) = false := beq_eq_false_iff_ne.mpr h
    simp [getFut, List.find?_cons, hb, h]

theorem getFut_append_left (l l' : List (Nat × FutState)) (i : Nat) (st : FutState)
    (h : getFut l i = some st) : getFut (l ++ l') i = some st := by
  induction l with
  | nil => simp [getFut] at h
  | cons hd tl ih =>
    rw [← hd.eta] at h ⊢
    rw [getFut_cons] at h
    rw [List.cons_append, getFut_cons]
    by_cases hk : hd.1 = i
    · rwa [if_pos hk] at h ⊢
    · rw [if_neg hk] at h ⊢
      exact ih h

theorem getFut_append_right (l l' : List (Nat × FutState)) (i : Nat)
    (h : ∀ p ∈ l, p.1 ≠ i) : getFut (l ++ l') i = getFut l' i := by
  induction l with
  | nil => simp
  | cons hd tl ih =>
    rw [← hd.eta, List.cons_append, getFut_cons, if_neg (h hd (by simp))]
    exact ih fun p hp => h p (by simp [hp])

theorem getFut_mapVal (l : List (Nat × FutState)) (f : Nat → FutState → FutState)
    (i : Nat) :
    getFut (l.map fun p => (p.1, f p.1 p.2)) i = (getFut l i).map (f i) := by
  induction l with
  | nil => rfl
  | cons hd tl ih =>
    rw [List.map_cons, getFut_cons]
    rw [← hd.eta, getFut_cons]
    by_cases hk : hd.1 = i
    · subst hk; simp
    · rw [if_neg hk, if_neg hk]
      exact ih

theorem getFut_setFut (l : List (Nat × FutState)) (i j : Nat) (st : FutState) :
    getFut (setFut l i st) j
      = (getFut l j).map (fun v => if j == i then st else v) := by
  simpa [setFut] using getFut_mapVal l (fun k v => if k == i then st else v) j

theorem getFut_setFut_self (l : List (Nat × FutState)) (i : Nat) (st st₀ : FutState)
    (h : getFut l i = some st₀) : getFut (setFut l i st) i = some st := by
  rw [getFut_setFut, h]
  simp

theorem getFut_setFut_ne (l : List (Nat × FutState)) (i j : Nat) (st : FutState)
    (h : j ≠ i) : getFut (setFut l i st) j = getFut l j := by
  rw [getFut_setFut]
  have hb : (j == i) = false := beq_eq_false_iff_ne.mpr h
  cases hl : getFut l j <;> simp [hb]

theorem keys_setFut (l : List (Nat × FutState)) (i : Nat) (st : FutState) :
    (setFut l i st).map Prod.fst = l.map Prod.fst := by
  simp [setFut]

theorem getFut_isSome_of_mem (l : List (Nat × FutState)) (i : Nat) (st : FutState)
    (h : (i, st) ∈ l) : (getFut l i).isSome = true := by
  induction l with
  | nil => simp at h
  | cons hd tl ih =>
    rw [← hd.eta, getFut_cons]
    rcases List.mem_cons.mp h with heq | hmem
    · have : hd.1 = i := by rw [← heq]
      simp [this]
    · by_cases hk : hd.1 = i
      · simp [hk]
      · rw [if_neg hk]
        exact ih hmem

/-! ## Codec lemmas -/

theorem deserializeFields_keys : ∀ (es es' : PyFields),
    deserializeFields es = .ok es' → es'.keys = es.keys
  | .nil, es', h => by
    simp only [deserializeFields] at h
    cases h
    rfl
  | .cons k v rest, es', h => by
    simp only [deserializeFields] at h
    cases hv : deserialize v with
    | error e => rw [hv] at h; simp [Bind.bind, Except.bind] at h
    | ok v' =>
      rw [hv] at h
      cases hr : deserializeFields rest with
      | error e => rw [hr] at h; simp [Bind.bind, Except.bind] at h
      | ok rest' =>
        rw [hr] at h
        simp only [Bind.bind, Except.bind, Except.ok.injEq] at h
        rw [← h]
        simp [PyFields.keys, deserializeFields_keys rest rest' hr]

/-! ## Claim C2: codec round-trip -/

/-- A concrete reference-bound proxy: a `Player` addressed purely by a
stable `(kind, id)` pair, never having held a live handle. -/
def refProxyEx : PyValue :=
  .proxy .player none none .nil (some "ref") (some "player") (some "Steve")

/-- C2 counterexample: for a reference-bound proxy, `_deserialize` is
not the inverse of `_serialize` — the serialized `{__ref__: {type,
id}}` form carries none of the tags `_deserialize` recognises, so the
round trip returns a plain mapping rather than a proxy of the same
kind. -/
theorem C2_counterexample :
    deserialize (serialize refProxyEx)
      = .ok (.dict (.cons "__ref__"
          (.dict (.cons "type" (.str "player") (.cons "id" (.str "Steve") .nil))) .nil))
    ∧ deserialize (serialize refProxyEx) ≠ .ok refProxyEx := by
  decide

/-- C2 (amended): the round trip through `_serialize` then
`_deserialize` reconstructs (1) a handle-bound proxy as a handle-bound
proxy with the same handle, but with the base class, no type name and
an empty field cache; (2) an enum-like value with its `type` and
`name` preserved and the class re-resolved from the type-name
registry; (3) a UUID exactly.  (Reference-bound and value-only
proxies do not round-trip at all — see the counterexample.) -/
theorem C2_roundtrip_amended :
    (∀ (cls : ProxyClass) (h : Int) (tn : Option String) (fs : PyFields)
        (tg rt ri : Option String),
        deserialize (serialize (.proxy cls (some h) tn fs tg rt ri))
          = .ok (.proxy .base (some h) none .nil none none none))
    ∧ (∀ (c : EnumClass) (t n : String),
        deserialize (serialize (.enumv c t n))
          = .ok (.enumv (EnumClass.ofTypeName t) t n))
    ∧ (∀ u : String, deserialize (serialize (.uuid u)) = .ok (.uuid u)) :=
  ⟨fun _ _ _ _ _ _ _ => rfl, fun _ _ _ => rfl, fun _ => rfl⟩

/-! ## Claim C10: the x,y,z positional-namespace rule -/

/-- C10: deserializing any string-keyed mapping that has all three of
`x`, `y`, `z` and none of the `__handle__`/`__uuid__`/`__enum__` tags
yields a `SimpleNamespace` of the (recursively deserialized) entries
— not a plain mapping — and every entry, including extra keys beyond
`x`,`y`,`z`, is preserved as an attribute (the key list is unchanged). -/
theorem C10_xyz_namespace (es : PyFields)
    (hx : es.hasKey "x" = true) (hy : es.hasKey "y" = true)
    (hz : es.hasKey "z" = true)
    (hh : es.hasKey "__handle__" = false) (hu : es.hasKey "__uuid__" = false)
    (he : es.hasKey "__enum__" = false) :
    deserialize (.dict es)
      = (deserializeFields es).map (fun es' => .simpleNamespace es')
    ∧ ∀ es', deserializeFields es = .ok es' →
        PyFields.keys es' = PyFields.keys es := by
  constructor
  · simp only [deserialize, hh, hu, he, hx, hy, hz, Bool.false_eq_true,
      if_false, Bool.and_self, if_true]
  · exact fun es' h => deserializeFields_keys es es' h

/-- A concrete `{x, y, z}` mapping with an extra key. -/
def xyzDictEx : PyFields :=
  .cons "x" (.int 1) (.cons "y" (.int 2)
    (.cons "z" (.int 3) (.cons "extra" (.str "kept") .nil)))

/-- C10 witness: the rule evaluated at a concrete four-key mapping. -/
theorem C10_witness :
    deserialize (.dict xyzDictEx) = .ok (.simpleNamespace xyzDictEx) :=
  ((C10_xyz_namespace xyzDictEx (by decide) (by decide) (by decide)
      (by decide) (by decide) (by decide)).1).trans (by decide)

/-! ## Claim C5: batch-exit mode computation -/

/-- C5: the code evaluated at the failing input.  One atomic scope is
open and one call is buffered; `currentBatchMode` still reports
`atomic`; yet the normal context exit (`__aexit__`) pops the scope
with `_end_batch()` before `flush()` reads the stack, so the single
`call_batch` frame goes out with `atomic = false` — contradicting the
`atomic()` docstring and the spec, which require the effective mode
of the scopes the calls were buffered under. -/
theorem C5_atomic_scope_flushes_nonatomic :
    currentBatchMode
        ((connCall (beginBatch (ConnState.init "tok") "atomic")
          "broadcastMessage" (.cons (.str "hi") .nil) none none .nil).2)
      = some "atomic"
    ∧ (aexitNormal
        ((connCall (beginBatch (ConnState.init "tok") "atomic")
          "broadcastMessage" (.cons (.str "hi") .nil) none none .nil).2)).2.sent
      = [Frame.auth "tok",
         Frame.callBatch false
           [buildCallMsg 1 "broadcastMessage" (.cons (.str "hi") .nil) none none .nil]] := by
  decide

/-! ## Claim C4: completion acknowledgment -/

/-- A cancellable event payload carrying event id 7. -/
def evPayload7 : PyValue :=
  .proxy .event none (some "PlayerChatEvent")
    (.cons "__event_id__" (.int 7) .nil) none none none

/-- C4 counterexample: dispatching an id-carrying event with zero
registered handlers still sends the `event_done` acknowledgment — the
`event_done` send sits under `if event_id is not None:` but outside
`if handlers:` — refuting the claim that no acknowledgment frame is
produced. -/
theorem C4_counterexample :
    dispatchFrames [] evPayload7 = [Frame.eventDone (.int 7)]
    ∧ dispatchFrames [] evPayload7 ≠ [] := by
  constructor
  · rfl
  · intro h
    simp [dispatchFrames, dispatchResults, evPayload7, eventIdOf,
      PyFields.lookup] at h

/-- C4 (amended): after all handlers of an id-carrying event finish, a
completion acknowledgment is always sent — last, and regardless of
how many handlers were registered; zero registered handlers still
acknowledge (only the override frames require at least one handler).
An event without an id produces no frames at all. -/
theorem C4_event_done_amended :
    ∀ (handlers : List Handler) (payload : PyValue),
      (∀ eid, eventIdOf payload = some eid →
        (dispatchFrames handlers payload).getLast? = some (Frame.eventDone eid)
        ∧ (handlers = [] →
            dispatchFrames handlers payload = [Frame.eventDone eid]))
      ∧ (eventIdOf payload = none → dispatchFrames handlers payload = []) := by
  intro handlers payload
  constructor
  · intro eid heid
    constructor
    · simp only [dispatchFrames, heid]
      exact List.getLast?_concat _
    · intro hnil
      subst hnil
      simp [dispatchFrames, heid]
  · intro heid
    simp [dispatchFrames, heid]

/-- C4 witness: the amended theorem applied to one trivial handler and
the concrete id-7 payload. -/
theorem C4_witness :
    (dispatchFrames [fun _ => HandlerResult.value .pyNone] evPayload7).getLast?
      = some (Frame.eventDone (.int 7)) :=
  ((C4_event_done_amended [fun _ => HandlerResult.value .pyNone] evPayload7).1
    (.int 7) (by decide)).1

/-! ## Claim C8: handler failure isolation -/

/-- C8: with three handlers of which the second raises, the collected
result list is exactly the three outcomes in order — handlers 1 and 3
run to completion and their results are collected for the override
scan — and a lone raising handler produces no override frame at all
on any payload (in particular no `event_result`/`damage` frame on a
damage-bearing event): only the completion acknowledgment, when the
event carries an id. -/
theorem C8_handler_isolation :
    ∀ (h1 h3 : Handler) (m : String) (payload : PyValue),
      dispatchResults [h1, fun _ => .exc m, h3] payload
        = [h1 payload, .exc m, h3 payload]
      ∧ dispatchFrames [fun _ => .exc m] payload
          = (match eventIdOf payload with
             | some eid => [Frame.eventDone eid]
             | none => []) := by
  intro h1 h3 m payload
  constructor
  · rfl
  · cases heid : eventIdOf payload with
    | none => simp [dispatchFrames, heid]
    | some eid =>
      simp [dispatchFrames, heid, dispatchResults, scanOverrides]

/-! ## Claim C6: the handle release queue -/

theorem flushReleases_fields (s : ConnState) :
    (flushReleases s).batchStack = s.batchStack
    ∧ (flushReleases s).batchMessages = s.batchMessages
    ∧ (flushReleases s).batchFutures = s.batchFutures
    ∧ (flushReleases s).idCounter = s.idCounter
    ∧ (flushReleases s).futures = s.futures
    ∧ (flushReleases s).pendingReg = s.pendingReg
    ∧ (flushReleases s).syncWaits = s.syncWaits
    ∧ (flushReleases s).syncReg = s.syncReg := by
  unfold flushReleases flushReleasesLocked
  split <;> simp

/-- C6 counterexample: a blocking outgoing call (`call_sync`) does NOT
flush the release queue — one queued release stays buffered across it
and no `release` frame goes out — refuting "stays buffered until the
next outgoing call ..., at which point the same single-frame flush
occurs and empties the queue". -/
theorem C6_counterexample :
    ((connCallSyncStart (queueRelease (ConnState.init "tok") 7)
        "getName" .nil (some 3) none .nil).2).releaseQueue = [7]
    ∧ ((connCallSyncStart (queueRelease (ConnState.init "tok") 7)
        "getName" .nil (some 3) none .nil).2).sent
      = [Frame.auth "tok",
         Frame.call (buildCallMsg 1 "getName" .nil (some 3) none .nil)] := by
  decide

/-- C6 (amended): (1) the 64th queued release flushes eagerly — one
`release` frame carrying all 64 ids, the queue emptied, no other
frame sent; (2) below 64 the queue only accumulates; (3) a
non-blocking outgoing call (`call`) first flushes the queue as a
single `release` frame and only then proceeds; (4) an explicit flush
does the same.  Blocking `call_sync` (see the counterexample) and
`wait` do not flush the queue. -/
theorem C6_release_queue_amended :
    (∀ (s : ConnState) (h : Int), s.releaseQueue.length = 63 →
        (queueRelease s h).releaseQueue = []
        ∧ (queueRelease s h).sent
            = s.sent ++ [Frame.release (s.releaseQueue ++ [h])])
    ∧ (∀ (s : ConnState) (h : Int), s.releaseQueue.length + 1 < 64 →
        queueRelease s h = { s with releaseQueue := s.releaseQueue ++ [h] })
    ∧ (∀ (s : ConnState) method args handle target kwargs,
        s.releaseQueue ≠ [] →
        (s.sent ++ [Frame.release s.releaseQueue])
          <+: (connCall s method args handle target kwargs).2.sent
        ∧ (connCall s method args handle target kwargs).2.releaseQueue = [])
    ∧ (∀ s : ConnState, s.releaseQueue ≠ [] →
        flushReleases s
          = { s with releaseQueue := [],
                     sent := s.sent ++ [Frame.release s.releaseQueue] }) := by
  refine ⟨?_, ?_, ?_, ?_⟩
  · intro s h h63
    have hlen : (s.releaseQueue ++ [h]).length = 64 := by simp [h63]
    have hne : (s.releaseQueue ++ [h]).isEmpty = false := by
      cases hq : s.releaseQueue ++ [h]
      · simp [hq] at hlen
      · rfl
    simp [queueRelease, flushReleasesLocked, hlen, hne]
  · intro s h hlt
    unfold queueRelease
    dsimp only
    split
    · next hge => exfalso; simp at hge; omega
    · rfl
  · intro s method args handle target kwargs hne
    have hq : s.releaseQueue.isEmpty = false := by
      cases hq : s.releaseQueue
      · exact absurd hq hne
      · rfl
    constructor
    · simp only [connCall, flushReleases, flushReleasesLocked, hq,
        Bool.false_eq_true, if_false]
      split
      · exact List.prefix_append _ _
      · exact List.prefix_rfl
    · simp only [connCall, flushReleases, flushReleasesLocked, hq,
        Bool.false_eq_true, if_false]
      split <;> rfl
  · intro s hne
    have hq : s.releaseQueue.isEmpty = false := by
      cases hq : s.releaseQueue
      · exact absurd hq hne
      · rfl
    simp [flushReleases, flushReleasesLocked, hq]

/-- A connection with 63 queued releases. -/
def relQueue63State : ConnState :=
  { ConnState.init "tok" with releaseQueue := List.replicate 63 (0 : Int) }

/-- A connection with one queued release. -/
def relQueue1State : ConnState :=
  { ConnState.init "tok" with releaseQueue := [7] }

/-- C6 witness: the amended theorem applied to a 63-deep queue (the
64th release flushes), an empty queue (the first release stays
buffered), and a non-blocking call over a non-empty queue (the queue
is emptied). -/
theorem C6_witness :
    (queueRelease relQueue63State 5).releaseQueue = []
    ∧ queueRelease (ConnState.init "tok") 7
        = { ConnState.init "tok" with releaseQueue := [7] }
    ∧ (connCall relQueue1State "getName" .nil none none .nil).2.releaseQueue = [] :=
  ⟨(C6_release_queue_amended.1 relQueue63State 5 (by decide)).1,
   (C6_release_queue_amended.2.1 (ConnState.init "tok") 7 (by decide)).trans (by decide),
   (C6_release_queue_amended.2.2.1 relQueue1State "getName" .nil none none .nil
      (by decide)).2⟩

/-! ## Claim C7: buffering while a batch scope is open -/

/-- C7 counterexample: with a `frame` scope open, a blocking call
(`call_sync`) is written to the wire immediately and nothing is
buffered — refuting "every outgoing call — blocking or non-blocking —
appends its message to the ordered batch buffer instead of being
sent". -/
theorem C7_counterexample :
    ((connCallSyncStart (beginBatch (ConnState.init "tok") "frame")
        "getName" .nil (some 3) none .nil).2).sent
      = [Frame.auth "tok",
         Frame.call (buildCallMsg 1 "getName" .nil (some 3) none .nil)]
    ∧ ((connCallSyncStart (beginBatch (ConnState.init "tok") "frame")
        "getName" .nil (some 3) none .nil).2).batchMessages = []
    ∧ (beginBatch (ConnState.init "tok") "frame").batchStack ≠ [] := by
  decide

/-- C7 (amended): while any batch scope is open, a non-blocking call
(`call`) appends its message and future to the batch buffers and
writes no `call` frame (at most a pending `release` flush precedes);
a blocking call (`call_sync`) and a `wait` always send their frame
immediately, batch scope or not. -/
theorem C7_batch_buffering_amended :
    (∀ (s : ConnState) method args handle target kwargs,
        s.batchStack ≠ [] →
        (connCall s method args handle target kwargs).2.sent = (flushReleases s).sent
        ∧ (connCall s method args handle target kwargs).2.batchMessages
            = s.batchMessages
              ++ [buildCallMsg s.idCounter method args handle target kwargs]
        ∧ (connCall s method args handle target kwargs).2.batchFutures
            = s.batchFutures ++ [s.idCounter])
    ∧ (∀ (s : ConnState) method args handle target kwargs,
        (connCallSyncStart s method args handle target kwargs).2.sent
          = s.sent
            ++ [Frame.call (buildCallMsg s.idCounter method args handle target kwargs)])
    ∧ (∀ (s : ConnState) (ticks : Int),
        (connWait s ticks).2.sent = s.sent ++ [Frame.waitFrame s.idCounter ticks]) := by
  refine ⟨?_, ?_, ?_⟩
  · intro s method args handle target kwargs hst
    have hstack : (flushReleases s).batchStack = s.batchStack :=
      (flushReleases_fields s).1
    have hempty : (flushReleases s).batchStack.isEmpty = false := by
      rw [hstack]
      cases hq : s.batchStack
      · exact absurd hq hst
      · rfl
    have hmsg : (flushReleases s).batchMessages = s.batchMessages :=
      (flushReleases_fields s).2.1
    have hfut : (flushReleases s).batchFutures = s.batchFutures :=
      (flushReleases_fields s).2.2.1
    have hid : (flushReleases s).idCounter = s.idCounter :=
      (flushReleases_fields s).2.2.2.1
    simp only [connCall, hempty, Bool.false_eq_true, if_false]
    refine ⟨?_, ?_, ?_⟩ <;> simp [hmsg, hid, hfut]
  · intro s method args handle target kwargs
    rfl
  · intro s ticks
    rfl

/-- C7 witness: with a frame scope open, one non-blocking call buffers
its message (no wire write); a blocking call and a wait send
immediately. -/
theorem C7_witness :
    ((connCall (beginBatch (ConnState.init "tok") "frame")
        "getPlayers" .nil none none .nil).2).batchMessages
      = [buildCallMsg 1 "getPlayers" .nil none none .nil]
    ∧ ((connWait (ConnState.init "tok") 2).2).sent
      = [Frame.auth "tok", Frame.waitFrame 1 2] :=
  ⟨by
    have h := (C7_batch_buffering_amended.1
      (beginBatch (ConnState.init "tok") "frame")
      "getPlayers" .nil none none .nil (by decide)).2.1
    exact h.trans (by decide),
   by
    have h := C7_batch_buffering_amended.2.2 (ConnState.init "tok") 2
    exact h.trans (by decide)⟩

/-! ## Claim C9: proxy attribute assignment -/

/-- C9: `ProxyBase.__setattr__` — an attribute whose name starts with
an underscore, or is exactly `fields`, is stored locally on the
instance with the connection untouched (no message, no registration);
every other name issues exactly one remote call — `setAttr` for a
reference-bound proxy, else `set_attr` — allocating a fresh request
id, and leaves the proxy instance (in particular its `fields` cache)
unchanged. -/
theorem C9_setattr_dichotomy :
    ∀ (s : ConnState) (p : PyProxy) (name : String) (v : PyValue),
      ((strStartsWith name "_" || name = "fields") = true →
        pySetattr s p name v = ({ attrs := p.attrs.set name v }, s))
      ∧ ((strStartsWith name "_" || name = "fields") = false →
        (pySetattr s p name v).1 = p
        ∧ (pySetattr s p name v).2.idCounter = s.idCounter + 1
        ∧ ((pySetattr s p name v).2
             = (connCall s "setAttr"
                 (.cons (p.attr "_ref_type") (.cons (p.attr "_ref_id")
                   (.cons (.str name) (.cons v .nil))))
                 none (some "ref") .nil).2
           ∨ (pySetattr s p name v).2
             = (connCall s "set_attr" .nil p.handleOpt none
                 (.cons "field" (.str name) (.cons "value" v .nil))).2)) := by
  intro s p name v
  constructor
  · intro hcond
    simp [pySetattr, hcond]
  · intro hcond
    have hid : ∀ (method : String) (args : PyList) (handle : Option Int)
        (target : Option String) (kwargs : PyFields),
        (connCall s method args handle target kwargs).2.idCounter
          = s.idCounter + 1 := by
      intro method args handle target kwargs
      have h := (flushReleases_fields s).2.2.2.1
      simp only [connCall]
      split <;> simp [h]
    simp only [pySetattr, hcond, Bool.false_eq_true, if_false]
    split
    · exact ⟨rfl, hid _ _ _ _ _, Or.inl rfl⟩
    · exact ⟨rfl, hid _ _ _ _ _, Or.inr rfl⟩

/-- A concrete reference-bound `Player` proxy instance. -/
def refPlayerProxy : PyProxy :=
  PyProxy.make none none .nil (some "ref") (some "player") (some "Steve")

/-- C9 witness: an underscore assignment stores locally with no
traffic; a plain assignment on a reference-bound proxy leaves the
instance unchanged and allocates a request id. -/
theorem C9_witness :
    pySetattr (ConnState.init "tok") refPlayerProxy "_cache" (.int 1)
      = ({ attrs := refPlayerProxy.attrs.set "_cache" (.int 1) },
         ConnState.init "tok")
    ∧ (pySetattr (ConnState.init "tok") refPlayerProxy "color" (.str "red")).1
      = refPlayerProxy
    ∧ (pySetattr (ConnState.init "tok") refPlayerProxy "color" (.str "red")).2.idCounter
      = (ConnState.init "tok").idCounter + 1 :=
  ⟨(C9_setattr_dichotomy (ConnState.init "tok") refPlayerProxy "_cache" (.int 1)).1
     (by decide),
   ((C9_setattr_dichotomy (ConnState.init "tok") refPlayerProxy "color" (.str "red")).2
     (by decide)).1,
   ((C9_setattr_dichotomy (ConnState.init "tok") refPlayerProxy "color" (.str "red")).2
     (by decide)).2.1⟩

/-! ## Reader-step evaluation lemmas -/

theorem mem_of_contains (l : List Nat) (i : Nat) (h : l.contains i = true) :
    i ∈ l := (contains_iff l i).mp h

theorem not_mem_of_contains_false (l : List Nat) (i : Nat)
    (h : l.contains i = false) : i ∉ l := by
  intro hm
  rw [(contains_iff l i).mpr hm] at h
  cases h

theorem deliverStep_ret_none (s : ConnState) (r : PyValue) :
    deliverStep s (.ret none r) = s := rfl

theorem deliverStep_err_none (s : ConnState) (c m : Option String) :
    deliverStep s (.err none c m) = s := rfl

theorem deliverStep_ret_sync (s : ConnState) (i : Nat) (r v : PyValue)
    (hs : s.syncReg.contains i = true) (hd : deserialize r = .ok v) :
    deliverStep s (.ret (some i) r)
      = { s with syncReg := removeId s.syncReg i,
                 syncWaits := setFut s.syncWaits i (.resolved v) } := by
  simp [deliverStep, readerDeliver, hd, mem_of_contains _ _ hs]

theorem deliverStep_ret_syncErr (s : ConnState) (i : Nat) (r : PyValue) (e : String)
    (hs : s.syncReg.contains i = true) (hd : deserialize r = .error e) :
    deliverStep s (.ret (some i) r)
      = { s with syncReg := removeId s.syncReg i } := by
  simp [deliverStep, readerDeliver, hd, mem_of_contains _ _ hs]

theorem deliverStep_ret_async (s : ConnState) (i : Nat) (r v : PyValue)
    (hs : s.syncReg.contains i = false) (hp : s.pendingReg.contains i = true)
    (hd : deserialize r = .ok v) :
    deliverStep s (.ret (some i) r)
      = { s with pendingReg := removeId s.pendingReg i,
                 futures := setFut s.futures i (.resolved v) } := by
  simp [deliverStep, readerDeliver, hd, not_mem_of_contains_false _ _ hs,
    mem_of_contains _ _ hp]

theorem deliverStep_ret_asyncErr (s : ConnState) (i : Nat) (r : PyValue) (e : String)
    (hs : s.syncReg.contains i = false) (hp : s.pendingReg.contains i = true)
    (hd : deserialize r = .error e) :
    deliverStep s (.ret (some i) r)
      = { s with pendingReg := removeId s.pendingReg i } := by
  simp [deliverStep, readerDeliver, hd, not_mem_of_contains_false _ _ hs,
    mem_of_contains _ _ hp]

theorem deliverStep_ret_unknown (s : ConnState) (i : Nat) (r : PyValue)
    (hs : s.syncReg.contains i = false) (hp : s.pendingReg.contains i = false) :
    deliverStep s (.ret (some i) r) = s := by
  simp [deliverStep, readerDeliver, not_mem_of_contains_false _ _ hs,
    not_mem_of_contains_false _ _ hp]

theorem deliverStep_err_sync (s : ConnState) (i : Nat) (c m : Option String)
    (hs : s.syncReg.contains i = true) :
    deliverStep s (.err (some i) c m)
      = { s with syncReg := removeId s.syncReg i,
                 syncWaits := setFut s.syncWaits i (.failed (errorOf c m)) } := by
  simp [deliverStep, readerDeliver, mem_of_contains _ _ hs]

theorem deliverStep_err_async (s : ConnState) (i : Nat) (c m : Option String)
    (hs : s.syncReg.contains i = false) (hp : s.pendingReg.contains i = true) :
    deliverStep s (.err (some i) c m)
      = { s with pendingReg := removeId s.pendingReg i,
                 futures := setFut s.futures i (.failed (errorOf c m)) } := by
  simp [deliverStep, readerDeliver, not_mem_of_contains_false _ _ hs,
    mem_of_contains _ _ hp]

theorem deliverStep_err_unknown (s : ConnState) (i : Nat) (c m : Option String)
    (hs : s.syncReg.contains i = false) (hp : s.pendingReg.contains i = false) :
    deliverStep s (.err (some i) c m) = s := by
  simp [deliverStep, readerDeliver, not_mem_of_contains_false _ _ hs,
    not_mem_of_contains_false _ _ hp]

/-! ## Registry well-formedness -/

/-- The registry invariant maintained by every connection operation:
the two registries are disjoint id sets; every registered id maps to
a still-pending future/waiter; every future or waiter ever created
has an id below the counter (ids are never reused); and the async and
sync tables never share an id. -/
structure WF (s : ConnState) : Prop where
  disjointRegs : ∀ i ∈ s.pendingReg, i ∉ s.syncReg
  regPending : ∀ i ∈ s.pendingReg, getFut s.futures i = some .pending
  syncRegPending : ∀ i ∈ s.syncReg, getFut s.syncWaits i = some .pending
  futFresh : ∀ p ∈ s.futures, p.1 < s.idCounter
  syncFresh : ∀ p ∈ s.syncWaits, p.1 < s.idCounter
  crossKeys : ∀ p ∈ s.futures, ∀ q ∈ s.syncWaits, p.1 ≠ q.1

theorem getFut_mem (l : List (Nat × FutState)) (i : Nat) (st : FutState)
    (h : getFut l i = some st) : (i, st) ∈ l := by
  unfold getFut at h
  cases hf : l.find? (fun p => p.1 == i) with
  | none => rw [hf] at h; cases h
  | some p =>
    rw [hf] at h
    have hmem := List.mem_of_find?_eq_some hf
    have hb := List.find?_some hf
    have hkey : p.1 = i := beq_iff_eq.mp hb
    simp only [Option.map_some'] at h
    cases h
    rw [← hkey, p.eta]
    exact hmem

theorem mem_keys_setFut (l : List (Nat × FutState)) (i : Nat) (st : FutState)
    (p : Nat × FutState) (hp : p ∈ setFut l i st) : ∃ q ∈ l, q.1 = p.1 := by
  have h1 : p.1 ∈ (setFut l i st).map Prod.fst := List.mem_map_of_mem _ hp
  rw [keys_setFut] at h1
  obtain ⟨q, hq, hqe⟩ := List.mem_map.mp h1
  exact ⟨q, hq, hqe⟩

theorem wf_setFut_syncWaits (s : ConnState) (i : Nat) (st : FutState)
    (hw : WF s) :
    WF { s with syncReg := removeId s.syncReg i,
                syncWaits := setFut s.syncWaits i st } := by
  refine ⟨?_, hw.regPending, ?_, hw.futFresh, ?_, ?_⟩
  · intro j hj hmem
    exact hw.disjointRegs j hj ((mem_removeId _ _ _).mp hmem).1
  · intro j hj
    obtain ⟨hj', hne⟩ := (mem_removeId _ _ _).mp hj
    rw [getFut_setFut_ne _ _ _ _ hne]
    exact hw.syncRegPending j hj'
  · intro p hp
    obtain ⟨q, hq, hqe⟩ := mem_keys_setFut _ _ _ _ hp
    exact hqe ▸ hw.syncFresh q hq
  · intro p hp q hq
    obtain ⟨q', hq', hqe⟩ := mem_keys_setFut _ _ _ _ hq
    exact hqe ▸ hw.crossKeys p hp q' hq'

theorem wf_setFut_futures (s : ConnState) (i : Nat) (st : FutState)
    (hw : WF s) :
    WF { s with pendingReg := removeId s.pendingReg i,
                futures := setFut s.futures i st } := by
  refine ⟨?_, ?_, hw.syncRegPending, ?_, hw.syncFresh, ?_⟩
  · intro j hj
    exact hw.disjointRegs j ((mem_removeId _ _ _).mp hj).1
  · intro j hj
    obtain ⟨hj', hne⟩ := (mem_removeId _ _ _).mp hj
    rw [getFut_setFut_ne _ _ _ _ hne]
    exact hw.regPending j hj'
  · intro p hp
    obtain ⟨q, hq, hqe⟩ := mem_keys_setFut _ _ _ _ hp
    exact hqe ▸ hw.futFresh q hq
  · intro p hp q hq
    obtain ⟨p', hp', hpe⟩ := mem_keys_setFut _ _ _ _ hp
    exact hpe ▸ hw.crossKeys p' hp' q hq

theorem wf_deliverStep (s : ConnState) (m : InMsg) (hw : WF s) :
    WF (deliverStep s m) := by
  cases m with
  | ret i? r =>
    cases i? with
    | none => rw [deliverStep_ret_none]; exact hw
    | some i =>
      by_cases hs : s.syncReg.contains i = true
      · cases hd : deserialize r with
        | ok v =>
          rw [deliverStep_ret_sync s i r v hs hd]
          exact wf_setFut_syncWaits s i _ hw
        | error e =>
          rw [deliverStep_ret_syncErr s i r e hs hd]
          refine ⟨?_, hw.regPending, ?_, hw.futFresh, hw.syncFresh, hw.crossKeys⟩
          · intro j hj hmem
            exact hw.disjointRegs j hj ((mem_removeId _ _ _).mp hmem).1
          · intro j hj
            exact hw.syncRegPending j ((mem_removeId _ _ _).mp hj).1
      · have hs' : s.syncReg.contains i = false := by
          cases h : s.syncReg.contains i
          · rfl
          · exact absurd h hs
        by_cases hp : s.pendingReg.contains i = true
        · cases hd : deserialize r with
          | ok v =>
            rw [deliverStep_ret_async s i r v hs' hp hd]
            exact wf_setFut_futures s i _ hw
          | error e =>
            rw [deliverStep_ret_asyncErr s i r e hs' hp hd]
            refine ⟨?_, ?_, hw.syncRegPending, hw.futFresh, hw.syncFresh, hw.crossKeys⟩
            · intro j hj
              exact hw.disjointRegs j ((mem_removeId _ _ _).mp hj).1
            · intro j hj
              exact hw.regPending j ((mem_removeId _ _ _).mp hj).1
        · have hp' : s.pendingReg.contains i = false := by
            cases h : s.pendingReg.contains i
            · rfl
            · exact absurd h hp
          rw [deliverStep_ret_unknown s i r hs' hp']
          exact hw
  | err i? c msg =>
    cases i? with
    | none => rw [deliverStep_err_none]; exact hw
    | some i =>
      by_cases hs : s.syncReg.contains i = true
      · rw [deliverStep_err_sync s i c msg hs]
        exact wf_setFut_syncWaits s i _ hw
      · have hs' : s.syncReg.contains i = false := by
          cases h : s.syncReg.contains i
          · rfl
          · exact absurd h hs
        by_cases hp : s.pendingReg.contains i = true
        · rw [deliverStep_err_async s i c msg hs' hp]
          exact wf_setFut_futures s i _ hw
        · have hp' : s.pendingReg.contains i = false := by
            cases h : s.pendingReg.contains i
            · rfl
            · exact absurd h hp
          rw [deliverStep_err_unknown s i c msg hs' hp']
          exact hw

/-! ## Well-formedness is preserved by every connection operation -/

theorem wf_flushReleases (s : ConnState) (hw : WF s) : WF (flushReleases s) := by
  unfold flushReleases flushReleasesLocked
  split
  · exact hw
  · exact ⟨hw.disjointRegs, hw.regPending, hw.syncRegPending, hw.futFresh,
      hw.syncFresh, hw.crossKeys⟩

theorem wf_register_async (s : ConnState) (hw : WF s) :
    WF { s with idCounter := s.idCounter + 1,
                futures := s.futures ++ [(s.idCounter, FutState.pending)],
                pendingReg := s.pendingReg ++ [s.idCounter] } := by
  refine ⟨?_, ?_, ?_, ?_, ?_, ?_⟩
  · intro i hi
    rcases List.mem_append.mp hi with hold | hnew
    · exact hw.disjointRegs i hold
    · have he : i = s.idCounter := by simpa using hnew
      subst he
      intro hmem
      have hm := getFut_mem _ _ _ (hw.syncRegPending _ hmem)
      exact absurd (hw.syncFresh _ hm) (lt_irrefl _)
  · intro i hi
    rcases List.mem_append.mp hi with hold | hnew
    · exact getFut_append_left _ _ _ _ (hw.regPending i hold)
    · have he : i = s.idCounter := by simpa using hnew
      subst he
      rw [getFut_append_right]
      · rw [getFut_cons]
        simp
      · intro p hp
        exact Nat.ne_of_lt (hw.futFresh p hp)
  · intro i hi
    exact hw.syncRegPending i hi
  · intro p hp
    rcases List.mem_append.mp hp with hold | hnew
    · exact Nat.lt_succ_of_lt (hw.futFresh p hold)
    · have he : p = (s.idCounter, FutState.pending) := by simpa using hnew
      rw [he]
      exact Nat.lt_succ_self _
  · intro p hp
    exact Nat.lt_succ_of_lt (hw.syncFresh p hp)
  · intro p hp q hq
    rcases List.mem_append.mp hp with hold | hnew
    · exact hw.crossKeys p hold q hq
    · have he : p = (s.idCounter, FutState.pending) := by simpa using hnew
      rw [he]
      exact (Nat.ne_of_lt (hw.syncFresh q hq)).symm

theorem wf_register_sync (s : ConnState) (hw : WF s) :
    WF { s with idCounter := s.idCounter + 1,
                syncWaits := s.syncWaits ++ [(s.idCounter, FutState.pending)],
                syncReg := s.syncReg ++ [s.idCounter] } := by
  refine ⟨?_, ?_, ?_, ?_, ?_, ?_⟩
  · intro i hi hmem
    rcases List.mem_append.mp hmem with hold | hnew
    · exact hw.disjointRegs i hi hold
    · have he : i = s.idCounter := by simpa using hnew
      subst he
      have hm := getFut_mem _ _ _ (hw.regPending _ hi)
      exact absurd (hw.futFresh _ hm) (lt_irrefl _)
  · intro i hi
    exact hw.regPending i hi
  · intro i hi
    rcases List.mem_append.mp hi with hold | hnew
    · exact getFut_append_left _ _ _ _ (hw.syncRegPending i hold)
    · have he : i = s.idCounter := by simpa using hnew
      subst he
      rw [getFut_append_right]
      · rw [getFut_cons]
        simp
      · intro p hp
        exact Nat.ne_of_lt (hw.syncFresh p hp)
  · intro p hp
    exact Nat.lt_succ_of_lt (hw.futFresh p hp)
  · intro p hp
    rcases List.mem_append.mp hp with hold | hnew
    · exact Nat.lt_succ_of_lt (hw.syncFresh p hold)
    · have he : p = (s.idCounter, FutState.pending) := by simpa using hnew
      rw [he]
      exact Nat.lt_succ_self _
  · intro p hp q hq
    rcases List.mem_append.mp hq with hold | hnew
    · exact hw.crossKeys p hp q hold
    · have he : q = (s.idCounter, FutState.pending) := by simpa using hnew
      rw [he]
      exact Nat.ne_of_lt (hw.futFresh p hp)

theorem wf_connCall (s : ConnState) (method : String) (args : PyList)
    (handle : Option Int) (target : Option String) (kwargs : PyFields)
    (hw : WF s) : WF (connCall s method args handle target kwargs).2 := by
  have hw2 := wf_register_async (flushReleases s) (wf_flushReleases s hw)
  unfold connCall
  dsimp only
  split
  · exact ⟨hw2.disjointRegs, hw2.regPending, hw2.syncRegPending, hw2.futFresh,
      hw2.syncFresh, hw2.crossKeys⟩
  · exact ⟨hw2.disjointRegs, hw2.regPending, hw2.syncRegPending, hw2.futFresh,
      hw2.syncFresh, hw2.crossKeys⟩

theorem wf_connCallSyncStart (s : ConnState) (method : String) (args : PyList)
    (handle : Option Int) (target : Option String) (kwargs : PyFields)
    (hw : WF s) : WF (connCallSyncStart s method args handle target kwargs).2 := by
  have hw2 := wf_register_sync s hw
  exact ⟨hw2.disjointRegs, hw2.regPending, hw2.syncRegPending, hw2.futFresh,
    hw2.syncFresh, hw2.crossKeys⟩

theorem wf_connWait (s : ConnState) (ticks : Int) (hw : WF s) :
    WF (connWait s ticks).2 := by
  have hw2 := wf_register_async s hw
  exact ⟨hw2.disjointRegs, hw2.regPending, hw2.syncRegPending, hw2.futFresh,
    hw2.syncFresh, hw2.crossKeys⟩

theorem wf_queueRelease (s : ConnState) (h : Int) (hw : WF s) :
    WF (queueRelease s h) := by
  unfold queueRelease flushReleasesLocked
  dsimp only
  split
  · split
    · exact ⟨hw.disjointRegs, hw.regPending, hw.syncRegPending, hw.futFresh,
        hw.syncFresh, hw.crossKeys⟩
    · exact ⟨hw.disjointRegs, hw.regPending, hw.syncRegPending, hw.futFresh,
        hw.syncFresh, hw.crossKeys⟩
  · exact ⟨hw.disjointRegs, hw.regPending, hw.syncRegPending, hw.futFresh,
      hw.syncFresh, hw.crossKeys⟩

theorem wf_beginBatch (s : ConnState) (mode : String) (hw : WF s) :
    WF (beginBatch s mode) :=
  ⟨hw.disjointRegs, hw.regPending, hw.syncRegPending, hw.futFresh,
    hw.syncFresh, hw.crossKeys⟩

theorem wf_endBatch (s : ConnState) (hw : WF s) : WF (endBatch s) :=
  ⟨hw.disjointRegs, hw.regPending, hw.syncRegPending, hw.futFresh,
    hw.syncFresh, hw.crossKeys⟩

theorem wf_connFlush (s : ConnState) (hw : WF s) : WF (connFlush s).2 := by
  unfold connFlush
  dsimp only
  split
  · exact hw
  · exact ⟨hw.disjointRegs, hw.regPending, hw.syncRegPending, hw.futFresh,
      hw.syncFresh, hw.crossKeys⟩

/-- The operations the application and the reader can interleave on a
live connection (reader termination excluded: after it the reader
delivers no further frames). -/
inductive BridgeOp where
  | call (method : String) (args : PyList) (handle : Option Int)
      (target : Option String) (kwargs : PyFields)
  | callSync (method : String) (args : PyList) (handle : Option Int)
      (target : Option String) (kwargs : PyFields)
  | wait (ticks : Int)
  | deliver (m : InMsg)
  | queueRelease (h : Int)
  | beginBatch (mode : String)
  | endBatch
  | flush

/-- Apply one operation to the connection state. -/
def applyOp (s : ConnState) : BridgeOp → ConnState
  | .call method args handle target kwargs =>
    (connCall s method args handle target kwargs).2
  | .callSync method args handle target kwargs =>
    (connCallSyncStart s method args handle target kwargs).2
  | .wait ticks => (connWait s ticks).2
  | .deliver m => deliverStep s m
  | .queueRelease h => queueRelease s h
  | .beginBatch mode => beginBatch s mode
  | .endBatch => endBatch s
  | .flush => (connFlush s).2

theorem wf_applyOp (s : ConnState) (op : BridgeOp) (hw : WF s) :
    WF (applyOp s op) := by
  cases op with
  | call method args handle target kwargs =>
    exact wf_connCall s method args handle target kwargs hw
  | callSync method args handle target kwargs =>
    exact wf_connCallSyncStart s method args handle target kwargs hw
  | wait ticks => exact wf_connWait s ticks hw
  | deliver m => exact wf_deliverStep s m hw
  | queueRelease h => exact wf_queueRelease s h hw
  | beginBatch mode => exact wf_beginBatch s mode hw
  | endBatch => exact wf_endBatch s hw
  | flush => exact wf_connFlush s hw

theorem wf_init (token : String) : WF (ConnState.init token) := by
  refine ⟨?_, ?_, ?_, ?_, ?_, ?_⟩ <;> intro p hp <;> simp [ConnState.init] at hp

/-! ## Correlation of frames with their own request ids -/

/-- The terminal state a `return`/`error` frame imposes on the call it
correlates with. -/
def InMsg.terminal : InMsg → FutState
  | .ret _ r =>
    match deserialize r with
    | .ok v => .resolved v
    | .error e => .failed (.protocolError e)
  | .err _ code msg => .failed (errorOf code msg)

theorem wf_deliverAll (s : ConnState) (ms : List InMsg) (hw : WF s) :
    WF (deliverAll s ms) := by
  induction ms generalizing s with
  | nil => exact hw
  | cons m ms ih =>
    simp only [deliverAll, List.foldl_cons]
    exact ih (deliverStep s m) (wf_deliverStep s m hw)

theorem deliverAll_append (s : ConnState) (a b : List InMsg) :
    deliverAll s (a ++ b) = deliverAll (deliverAll s a) b :=
  List.foldl_append _ _ _ _

theorem deliverAll_cons (s : ConnState) (m : InMsg) (ms : List InMsg) :
    deliverAll s (m :: ms) = deliverAll (deliverStep s m) ms := rfl

/-- A frame carrying a different id (or none) touches neither the
future/waiter registered under `i` nor `i`'s registration. -/
theorem deliverStep_other (s : ConnState) (m : InMsg) (i : Nat)
    (h : m.msgId ≠ some i) :
    getFut (deliverStep s m).futures i = getFut s.futures i
    ∧ getFut (deliverStep s m).syncWaits i = getFut s.syncWaits i
    ∧ (deliverStep s m).pendingReg.contains i = s.pendingReg.contains i
    ∧ (deliverStep s m).syncReg.contains i = s.syncReg.contains i := by
  cases m with
  | ret j? r =>
    cases j? with
    | none => rw [deliverStep_ret_none]; exact ⟨rfl, rfl, rfl, rfl⟩
    | some j =>
      have hne : i ≠ j := by
        intro he
        exact h (by rw [InMsg.msgId, he])
      by_cases hs : s.syncReg.contains j = true
      · cases hd : deserialize r with
        | ok v =>
          rw [deliverStep_ret_sync s j r v hs hd]
          exact ⟨rfl, getFut_setFut_ne _ _ _ _ hne,
            rfl, contains_removeId _ _ _ hne⟩
        | error e =>
          rw [deliverStep_ret_syncErr s j r e hs hd]
          exact ⟨rfl, rfl, rfl, contains_removeId _ _ _ hne⟩
      · have hs' : s.syncReg.contains j = false := by
          cases hc : s.syncReg.contains j
          · rfl
          · exact absurd hc hs
        by_cases hp : s.pendingReg.contains j = true
        · cases hd : deserialize r with
          | ok v =>
            rw [deliverStep_ret_async s j r v hs' hp hd]
            exact ⟨getFut_setFut_ne _ _ _ _ hne, rfl,
              contains_removeId _ _ _ hne, rfl⟩
          | error e =>
            rw [deliverStep_ret_asyncErr s j r e hs' hp hd]
            exact ⟨rfl, rfl, contains_removeId _ _ _ hne, rfl⟩
        · have hp' : s.pendingReg.contains j = false := by
            cases hc : s.pendingReg.contains j
            · rfl
            · exact absurd hc hp
          rw [deliverStep_ret_unknown s j r hs' hp']
          exact ⟨rfl, rfl, rfl, rfl⟩
  | err j? c msg =>
    cases j? with
    | none => rw [deliverStep_err_none]; exact ⟨rfl, rfl, rfl, rfl⟩
    | some j =>
      have hne : i ≠ j := by
        intro he
        exact h (by rw [InMsg.msgId, he])
      by_cases hs : s.syncReg.contains j = true
      · rw [deliverStep_err_sync s j c msg hs]
        exact ⟨rfl, getFut_setFut_ne _ _ _ _ hne,
          rfl, contains_removeId _ _ _ hne⟩
      · have hs' : s.syncReg.contains j = false := by
          cases hc : s.syncReg.contains j
          · rfl
          · exact absurd hc hs
        by_cases hp : s.pendingReg.contains j = true
        · rw [deliverStep_err_async s j c msg hs' hp]
          exact ⟨getFut_setFut_ne _ _ _ _ hne, rfl,
            contains_removeId _ _ _ hne, rfl⟩
        · have hp' : s.pendingReg.contains j = false := by
            cases hc : s.pendingReg.contains j
            · rfl
            · exact absurd hc hp
          rw [deliverStep_err_unknown s j c msg hs' hp']
          exact ⟨rfl, rfl, rfl, rfl⟩

theorem deliverAll_other (s : ConnState) (ms : List InMsg) (i : Nat)
    (h : ∀ m ∈ ms, m.msgId ≠ some i) :
    getFut (deliverAll s ms).futures i = getFut s.futures i
    ∧ getFut (deliverAll s ms).syncWaits i = getFut s.syncWaits i
    ∧ (deliverAll s ms).pendingReg.contains i = s.pendingReg.contains i
    ∧ (deliverAll s ms).syncReg.contains i = s.syncReg.contains i := by
  induction ms generalizing s with
  | nil => exact ⟨rfl, rfl, rfl, rfl⟩
  | cons m ms ih =>
    have h1 := deliverStep_other s m i (h m (by simp))
    have h2 := ih (deliverStep s m) (fun m' hm' => h m' (by simp [hm']))
    rw [deliverAll_cons]
    exact ⟨h2.1.trans h1.1, h2.2.1.trans h1.2.1,
      h2.2.2.1.trans h1.2.2.1, h2.2.2.2.trans h1.2.2.2⟩

/-- A decodable frame whose id is registered as an async future
resolves exactly that future to the frame's terminal state and
retires the id from the registry. -/
theorem deliverStep_own_async (s : ConnState) (m : InMsg) (i : Nat)
    (hw : WF s) (hid : m.msgId = some i) (hdec : m.decodable = true)
    (hp : s.pendingReg.contains i = true) :
    getFut (deliverStep s m).futures i = some m.terminal
    ∧ (deliverStep s m).pendingReg.contains i = false := by
  have hs : s.syncReg.contains i = false := by
    cases hc : s.syncReg.contains i
    · rfl
    · exact absurd (mem_of_contains _ _ hc)
        (hw.disjointRegs i (mem_of_contains _ _ hp))
  have hpend := hw.regPending i (mem_of_contains _ _ hp)
  cases m with
  | ret j? r =>
    cases j? with
    | none => cases hid
    | some j =>
      have he : j = i := by
        have : some j = some i := hid
        exact Option.some.inj this
      subst he
      cases hd : deserialize r with
      | error e => simp [InMsg.decodable, hd, Except.toBool] at hdec
      | ok v =>
        rw [deliverStep_ret_async s j r v hs hp hd]
        refine ⟨?_, contains_removeId_self _ _⟩
        have := getFut_setFut_self s.futures j (.resolved v) _ hpend
        rw [this]
        simp [InMsg.terminal, hd]
  | err j? c msg =>
    cases j? with
    | none => cases hid
    | some j =>
      have he : j = i := by
        have : some j = some i := hid
        exact Option.some.inj this
      subst he
      rw [deliverStep_err_async s j c msg hs hp]
      refine ⟨?_, contains_removeId_self _ _⟩
      have := getFut_setFut_self s.futures j (.failed (errorOf c msg)) _ hpend
      rw [this]
      simp [InMsg.terminal]

/-- A decodable frame whose id is registered as a blocking waiter
resolves exactly that waiter to the frame's terminal state and retires
the id from the sync registry. -/
theorem deliverStep_own_sync (s : ConnState) (m : InMsg) (i : Nat)
    (hw : WF s) (hid : m.msgId = some i) (hdec : m.decodable = true)
    (hp : s.syncReg.contains i = true) :
    getFut (deliverStep s m).syncWaits i = some m.terminal
    ∧ (deliverStep s m).syncReg.contains i = false := by
  have hpend := hw.syncRegPending i (mem_of_contains _ _ hp)
  cases m with
  | ret j? r =>
    cases j? with
    | none => cases hid
    | some j =>
      have he : j = i := by
        have : some j = some i := hid
        exact Option.some.inj this
      subst he
      cases hd : deserialize r with
      | error e => simp [InMsg.decodable, hd, Except.toBool] at hdec
      | ok v =>
        rw [deliverStep_ret_sync s j r v hp hd]
        refine ⟨?_, contains_removeId_self _ _⟩
        have := getFut_setFut_self s.syncWaits j (.resolved v) _ hpend
        rw [this]
        simp [InMsg.terminal, hd]
  | err j? c msg =>
    cases j? with
    | none => cases hid
    | some j =>
      have he : j = i := by
        have : some j = some i := hid
        exact Option.some.inj this
      subst he
      rw [deliverStep_err_sync s j c msg hp]
      refine ⟨?_, contains_removeId_self _ _⟩
      have := getFut_setFut_self s.syncWaits j (.failed (errorOf c msg)) _ hpend
      rw [this]
      simp [InMsg.terminal]

theorem connCall_id (s : ConnState) (method : String) (args : PyList)
    (handle : Option Int) (target : Option String) (kwargs : PyFields) :
    (connCall s method args handle target kwargs).1 = s.idCounter := by
  unfold connCall
  dsimp only
  split
  · exact (flushReleases_fields s).2.2.2.1
  · exact (flushReleases_fields s).2.2.2.1

/-! ## Claim C1 -/

/-- C1: request/response correlation.  (1) The freshly constructed
connection satisfies the registry invariant `WF`, and (2) every
operation — non-blocking call, blocking call, wait, frame delivery,
release queueing, batch push/pop, flush — preserves it, so at any
time during a run each id is registered in at most one of the two
registries, which (3) states explicitly.  (4) The id allocated by a
new call differs from the id of every future and waiter ever created
(ids are never reused).  (5) Under any completion ordering — any
frame sequence in which exactly one (decodable) terminal frame
carries id `i` — the async future (resp. blocking waiter) registered
under `i` ends in exactly that frame's own result or error, never
another frame's. -/
theorem C1_correlation :
    (∀ token, WF (ConnState.init token))
    ∧ (∀ (s : ConnState) (op : BridgeOp), WF s → WF (applyOp s op))
    ∧ (∀ s : ConnState, WF s → ∀ i ∈ s.pendingReg, i ∉ s.syncReg)
    ∧ (∀ (s : ConnState) (method : String) (args : PyList) (handle : Option Int)
         (target : Option String) (kwargs : PyFields), WF s →
        (∀ p ∈ s.futures, p.1 ≠ (connCall s method args handle target kwargs).1)
        ∧ (∀ q ∈ s.syncWaits, q.1 ≠ (connCall s method args handle target kwargs).1))
    ∧ (∀ (s : ConnState) (ms1 : List InMsg) (m : InMsg) (ms2 : List InMsg) (i : Nat),
        WF s → m.msgId = some i →
        (∀ m' ∈ ms1, m'.msgId ≠ some i) →
        (∀ m' ∈ ms2, m'.msgId ≠ some i) →
        m.decodable = true →
        (s.pendingReg.contains i = true →
          getFut (deliverAll s (ms1 ++ m :: ms2)).futures i = some m.terminal)
        ∧ (s.syncReg.contains i = true →
          getFut (deliverAll s (ms1 ++ m :: ms2)).syncWaits i = some m.terminal)) := by
  refine ⟨wf_init, ?_, ?_, ?_, ?_⟩
  · intro s op hw
    exact wf_applyOp s op hw
  · intro s hw i hi
    exact hw.disjointRegs i hi
  · intro s method args handle target kwargs hw
    rw [connCall_id]
    constructor
    · intro p hp
      exact Nat.ne_of_lt (hw.futFresh p hp)
    · intro q hq
      exact Nat.ne_of_lt (hw.syncFresh q hq)
  · intro s ms1 m ms2 i hw hid h1 h2 hdec
    have hwa : WF (deliverAll s ms1) := wf_deliverAll s ms1 hw
    have hoth := deliverAll_other s ms1 i h1
    constructor
    · intro hp
      rw [deliverAll_append, deliverAll_cons]
      have hp1 : (deliverAll s ms1).pendingReg.contains i = true := by
        rw [hoth.2.2.1]; exact hp
      have hown := deliverStep_own_async (deliverAll s ms1) m i hwa hid hdec hp1
      have hafter := deliverAll_other (deliverStep (deliverAll s ms1) m) ms2 i h2
      rw [hafter.1, hown.1]
    · intro hp
      rw [deliverAll_append, deliverAll_cons]
      have hp1 : (deliverAll s ms1).syncReg.contains i = true := by
        rw [hoth.2.2.2]; exact hp
      have hown := deliverStep_own_sync (deliverAll s ms1) m i hwa hid hdec hp1
      have hafter := deliverAll_other (deliverStep (deliverAll s ms1) m) ms2 i h2
      rw [hafter.2.1, hown.1]

/-- Two non-blocking calls (ids 1 and 2) followed by one blocking call
(id 3) on a fresh connection. -/
def mixedCallsState : ConnState :=
  (connCallSyncStart
    ((connCall ((connCall (ConnState.init "tok")
        "getName" .nil (some 10) none .nil)).2
      "getHealth" .nil (some 11) none .nil)).2
    "getWorld" .nil (some 12) none .nil).2

/-- C1 witness: three mixed outstanding calls completed out of order —
the error frame for the blocking id 3 arriving between the returns
for ids 2 and 1 — each resolving to its own frame's payload. -/
theorem C1_witness :
    getFut (deliverAll mixedCallsState
        ([InMsg.ret (some 2) (.int 20), InMsg.err (some 3) (some "ENTITY_GONE") (some "gone")]
          ++ InMsg.ret (some 1) (.int 10) :: [])).futures 1
      = some (.resolved (.int 10))
    ∧ getFut (deliverAll mixedCallsState
        ([InMsg.ret (some 2) (.int 20)]
          ++ InMsg.err (some 3) (some "ENTITY_GONE") (some "gone")
            :: [InMsg.ret (some 1) (.int 10)])).syncWaits 3
      = some (.failed (.entityGone (some "gone"))) :=
  ⟨((C1_correlation.2.2.2.2 mixedCallsState
      [InMsg.ret (some 2) (.int 20), InMsg.err (some 3) (some "ENTITY_GONE") (some "gone")]
      (InMsg.ret (some 1) (.int 10)) [] 1
      ⟨by decide, by decide, by decide, by decide, by decide, by decide⟩
      rfl (by decide) (by decide) (by decide)).1 (by decide)).trans (by decide),
   ((C1_correlation.2.2.2.2 mixedCallsState
      [InMsg.ret (some 2) (.int 20)]
      (InMsg.err (some 3) (some "ENTITY_GONE") (some "gone"))
      [InMsg.ret (some 1) (.int 10)] 3
      ⟨by decide, by decide, by decide, by decide, by decide, by decide⟩
      rfl (by decide) (by decide) (by decide)).2 (by decide)).trans (by decide)⟩

/-! ## Claim C3: reader-loop termination -/

theorem getFut_handleReaderError (s : ConnState) (e : BridgeErr) (i : Nat) :
    getFut (handleReaderError s e).futures i
      = (getFut s.futures i).map fun st =>
          if s.pendingReg.contains i && st == FutState.pending
          then FutState.failed e else st :=
  getFut_mapVal s.futures
    (fun k st => if s.pendingReg.contains k && st == FutState.pending
                 then FutState.failed e else st) i

theorem getFut_readerFinally_futures (s : ConnState) (i : Nat) :
    getFut (readerFinally s).futures i
      = (getFut s.futures i).map fun st =>
          if s.pendingReg.contains i && st == FutState.pending
          then FutState.failed connectionLost else st :=
  getFut_mapVal s.futures
    (fun k st => if s.pendingReg.contains k && st == FutState.pending
                 then FutState.failed connectionLost else st) i

theorem getFut_readerFinally_sync (s : ConnState) (i : Nat) :
    getFut (readerFinally s).syncWaits i
      = (getFut s.syncWaits i).map fun st =>
          if s.syncReg.contains i then FutState.failed connectionLost else st :=
  getFut_mapVal s.syncWaits
    (fun k st => if s.syncReg.contains k then FutState.failed connectionLost else st) i

/-- C3 counterexample: when the reader loop dies on a fatal
protocol/decode error, the outstanding async future is failed with
that protocol error itself — scheduled by the `except` branch before
the `finally` block's disconnect error, which then finds the future
already done — not with a ConnectionLost error as the claim states. -/
theorem C3_counterexample :
    getFut (readerTerminate
        ((connCall (ConnState.init "tok") "getName" .nil (some 10) none .nil).2)
        (some (.protocolError "bad frame"))).futures 1
      = some (.failed (.protocolError "bad frame"))
    ∧ BridgeErr.protocolError "bad frame" ≠ connectionLost := by
  decide

/-- C3 (amended): whenever the reader loop terminates, every
registered blocking waiter is failed with ConnectionLost and the sync
registry is cleared; every registered still-pending async future is
failed exactly once — with ConnectionLost on end-of-stream, but with
the terminating protocol error itself when the loop broke on an
exception; futures already resolved or failed are never overwritten
(so no call resolves twice). -/
theorem C3_termination_amended :
    ∀ (s : ConnState) (exc : Option BridgeErr),
      (∀ i ∈ s.syncReg, ∀ st, getFut s.syncWaits i = some st →
        getFut (readerTerminate s exc).syncWaits i
          = some (.failed connectionLost))
      ∧ (readerTerminate s exc).syncReg = []
      ∧ (∀ i, s.pendingReg.contains i = true →
          getFut s.futures i = some .pending →
          getFut (readerTerminate s exc).futures i
            = some (.failed (exc.getD connectionLost)))
      ∧ (∀ i v, getFut s.futures i = some (.resolved v) →
          getFut (readerTerminate s exc).futures i = some (.resolved v))
      ∧ (∀ i e, getFut s.futures i = some (.failed e) →
          getFut (readerTerminate s exc).futures i = some (.failed e)) := by
  intro s exc
  cases exc with
  | none =>
    refine ⟨?_, rfl, ?_, ?_, ?_⟩
    · intro i hi st hst
      rw [show readerTerminate s none = readerFinally s from rfl,
        getFut_readerFinally_sync, hst]
      simp only [Option.map_some']
      simp [(contains_iff _ _).mpr hi]
      exact fun hmem => absurd hi hmem
    · intro i hp hpend
      rw [show readerTerminate s none = readerFinally s from rfl,
        getFut_readerFinally_futures, hpend]
      simp [hp]
      exact mem_of_contains _ _ hp
    · intro i v hv
      rw [show readerTerminate s none = readerFinally s from rfl,
        getFut_readerFinally_futures, hv]
      simp
    · intro i e hv
      rw [show readerTerminate s none = readerFinally s from rfl,
        getFut_readerFinally_futures, hv]
      simp
  | some e =>
    have hsw : (handleReaderError s e).syncWaits = s.syncWaits := rfl
    have hsr : (handleReaderError s e).syncReg = s.syncReg := rfl
    have hpr : (handleReaderError s e).pendingReg = s.pendingReg := rfl
    refine ⟨?_, rfl, ?_, ?_, ?_⟩
    · intro i hi st hst
      rw [show readerTerminate s (some e) = readerFinally (handleReaderError s e)
          from rfl, getFut_readerFinally_sync, hsw, hsr, hst]
      simp [(contains_iff _ _).mpr hi]
      exact fun hmem => absurd hi hmem
    · intro i hp hpend
      rw [show readerTerminate s (some e) = readerFinally (handleReaderError s e)
          from rfl, getFut_readerFinally_futures, hpr,
        getFut_handleReaderError, hpend]
      simp [hp]
      exact mem_of_contains _ _ hp
    · intro i v hv
      rw [show readerTerminate s (some e) = readerFinally (handleReaderError s e)
          from rfl, getFut_readerFinally_futures, hpr,
        getFut_handleReaderError, hv]
      simp
    · intro i e' hv
      rw [show readerTerminate s (some e) = readerFinally (handleReaderError s e)
          from rfl, getFut_readerFinally_futures, hpr,
        getFut_handleReaderError, hv]
      simp

/-- C3 witness: end-of-stream termination over the mixed outstanding
calls — the blocking waiter (id 3) and a pending async future (id 1)
both fail with ConnectionLost. -/
theorem C3_witness :
    getFut (readerTerminate mixedCallsState none).syncWaits 3
      = some (.failed connectionLost)
    ∧ getFut (readerTerminate mixedCallsState none).futures 1
      = some (.failed connectionLost) :=
  ⟨(C3_termination_amended mixedCallsState none).1 3 (by decide) .pending (by decide),
   (C3_termination_amended mixedCallsState none).2.2.1 1 (by decide) (by decide)⟩

end PyJavaBridge

